import Mathlib

/-!
Shallow embedding of `capi/examples/server.c` (hyper C API example server):
a single-threaded epoll-driven event loop bridging non-blocking socket I/O
to hyper's waker-based executor.  Wakers (`hyper_waker`) are modelled as
natural-number identifiers; syscall outcomes, epoll events and signals are
explicit inputs; side effects (frees, wakes, logs, closes) are recorded in
output lists so that ordering and counting claims can be stated.
-/

namespace HyperServer

/-- Resumption handle (`hyper_waker *`), identified by a serial number. -/
abbrev Waker := Nat

/-- Errno outcomes distinguished by the program: `EAGAIN` vs anything else. -/
inductive Errno where
  | eagain : Errno
  | other (code : Nat) : Errno
deriving DecidableEq, Repr

/-- Per-connection state `conn_data`: the fd and the two nullable waker slots. -/
structure ConnData where
  fd : Int
  read_waker : Option Waker
  write_waker : Option Waker
deriving DecidableEq, Repr

/-- Result of a non-blocking `read`/`write`/`accept` syscall: a non-negative
return value, or failure with an errno. -/
inductive SyscallRet where
  | ok (n : Nat) : SyscallRet
  | fail (e : Errno) : SyscallRet
deriving DecidableEq, Repr

/-- Value returned by an I/O callback to hyper: a byte count, the
`HYPER_IO_PENDING` sentinel, or the `HYPER_IO_ERROR` sentinel. -/
inductive IoVal where
  | bytes (n : Nat) : IoVal
  | ioPending : IoVal
  | ioErr : IoVal
deriving DecidableEq, Repr

/-- Output of one invocation of `read_cb` / `write_cb`: the returned value,
the connection record as left by the call, and the wakers freed during it. -/
structure CbOut where
  ret : IoVal
  conn : ConnData
  freed : List Waker
deriving DecidableEq, Repr

/-- Embedding of `read_cb` (server.c:133-153).  `ctx` stands for the fresh
waker `hyper_context_waker(ctx)` would mint; `sys` is the outcome of the
`read(conn->fd, buf, buf_len)` syscall. -/
def read_cb (conn : ConnData) (ctx : Waker) (sys : SyscallRet) : CbOut :=
  match sys with
  | .ok n => { ret := .bytes n, conn := conn, freed := [] }
  | .fail e =>
    if e ≠ .eagain then
      { ret := .ioErr, conn := conn, freed := [] }
    else
      { ret := .ioPending
        conn := { conn with read_waker := some ctx }
        freed := conn.read_waker.toList }

/-- Embedding of `write_cb` (server.c:155-175), symmetric to `read_cb` on the
write slot. -/
def write_cb (conn : ConnData) (ctx : Waker) (sys : SyscallRet) : CbOut :=
  match sys with
  | .ok n => { ret := .bytes n, conn := conn, freed := [] }
  | .fail e =>
    if e ≠ .eagain then
      { ret := .ioErr, conn := conn, freed := [] }
    else
      { ret := .ioPending
        conn := { conn with write_waker := some ctx }
        freed := conn.write_waker.toList }

/-- Epoll event bits reported for a connection fd. -/
structure Events where
  epollin : Bool
  epollout : Bool
deriving DecidableEq, Repr

/-- Output of the readiness fan-out for one connection: the updated record
and the wakers woken (in program order). -/
structure WakeOut where
  conn : ConnData
  woken : List Waker
deriving DecidableEq, Repr

/-- Embedding of the transport-event branch of `main` (server.c:411-422):
if `EPOLLIN` is set and a read waker is stored, wake it and clear the slot;
then likewise for `EPOLLOUT` and the write waker. -/
def handle_conn_event (conn : ConnData) (ev : Events) : WakeOut :=
  let s1 : ConnData × List Waker :=
    match ev.epollin, conn.read_waker with
    | true, some w => ({ conn with read_waker := none }, [w])
    | _, _ => (conn, [])
  let s2 : ConnData × List Waker :=
    match ev.epollout, s1.1.write_waker with
    | true, some w => ({ s1.1 with write_waker := none }, [w])
    | _, _ => (s1.1, [])
  { conn := s2.1, woken := s1.2 ++ s2.2 }

/-- Observable side-effecting step of the program, used to state ordering
claims about teardown, the executor pump and shutdown. -/
inductive Action where
  | epollDel (fd : Int) : Action
  | logPerror (msg : String) : Action
  | waker_free (w : Waker) : Action
  | closeFd (fd : Int) : Action
  | freeConn : Action
  | printLine (msg : String) : Action
  | freeErr : Action
  | freeTask : Action
  | epollWait (readyCount : Nat) : Action
  | freeOpts : Action
  | freeExec : Action
deriving DecidableEq, Repr

/-- Embedding of `free_conn_data` (server.c:207-228) as its sequence of
effects: deregister the fd from epoll (a failure is logged via `perror` and
nothing more), free the stored read waker then the stored write waker if
present (the source also nulls the slots just before freeing the record),
close the fd, free the record. -/
def free_conn_data (epollDelOk : Bool) (conn : ConnData) : List Action :=
  [Action.epollDel conn.fd]
  ++ (if epollDelOk then [] else [Action.logPerror "epoll_ctl (transport)"])
  ++ conn.read_waker.toList.map Action.waker_free
  ++ conn.write_waker.toList.map Action.waker_free
  ++ [Action.closeFd conn.fd, Action.freeConn]

/-- Terminal type of a completed hyper task as inspected by the pump loop:
`HYPER_TASK_ERROR` or `HYPER_TASK_EMPTY`. -/
inductive TaskType where
  | taskError : TaskType
  | taskEmpty : TaskType
deriving DecidableEq, Repr

/-- Completed task handed back by `hyper_executor_poll`: its terminal type
and the `hyper_task_userdata` slot (a connection record or null). -/
structure HTask where
  ttype : TaskType
  userdata : Option ConnData
deriving DecidableEq, Repr

/-- Executor state visible to the host: the queue of completed (ready)
tasks that successive `hyper_executor_poll` calls will return. -/
structure ExecSt where
  ready : List HTask
deriving DecidableEq, Repr

/-- Embedding of `hyper_executor_poll` (as used at server.c:297): returns
the next completed task, or none when the queue is empty. -/
def hyper_executor_poll (e : ExecSt) : Option HTask × ExecSt :=
  match e.ready with
  | [] => (none, e)
  | t :: ts => (some t, ⟨ts⟩)

/-- Handling of one completed task inside the pump loop (server.c:301-334):
an error task prints the diagnostic, frees the error, destroys the attached
connection record when present, and frees the task; an empty task destroys
the record when present (otherwise it is an internal hyper task) and frees
the task. -/
def handleTask (epollDelOk : Bool) (t : HTask) : List Action :=
  match t.ttype with
  | .taskError =>
      [Action.printLine "handshake error!", Action.freeErr]
      ++ (match t.userdata with
          | some c => free_conn_data epollDelOk c
          | none => [])
      ++ [Action.freeTask]
  | .taskEmpty =>
      (match t.userdata with
       | some c => Action.printLine "server connection complete" :: free_conn_data epollDelOk c
       | none => [Action.printLine "internal hyper task complete"])
      ++ [Action.freeTask]

/-- Embedding of the inner pump loop of `main` (server.c:296-335): poll the
executor repeatedly, handling each completed task, until polling yields no
task.  Returns the handling actions and the executor state at loop exit. -/
def pumpLoop (epollDelOk : Bool) (e : ExecSt) : List Action × ExecSt :=
  match h : hyper_executor_poll e with
  | (none, e1) => ([], e1)
  | (some t, e1) =>
      have : e1.ready.length < e.ready.length := by
        cases e with
        | mk q =>
          cases q with
          | nil => simp [hyper_executor_poll] at h
          | cons t0 ts =>
            simp only [hyper_executor_poll] at h
            cases h
            simp
      let rest := pumpLoop epollDelOk e1
      (handleTask epollDelOk t ++ rest.1, rest.2)
termination_by e.ready.length

/-- One iteration of the outer `while (1)` loop of `main` up to and
including the blocking `epoll_wait` call (server.c:295-341): first the pump
loop runs to emptiness, then `epoll_wait` blocks.  The `epollWait` action
records the number of ready tasks queued at the moment of the call. -/
def mainLoopIter (epollDelOk : Bool) (e : ExecSt) : List Action :=
  let p := pumpLoop epollDelOk e
  p.1 ++ [Action.epollWait p.2.ready.length]

/-- Embedding of `listen_on` (server.c:40-110) as the fd it returns.
Inputs: whether `getaddrinfo` succeeded, the socket fd obtained by the
bind loop (negative when no address bound), and whether the two `fcntl`
calls and `listen` succeeded.  Note the source returns `1` — not `-1` —
when `fcntl(FD_CLOEXEC)` fails (line 100). -/
def listen_on (gaiOk : Bool) (boundSock : Int) (nonblockOk cloexecOk listenOk : Bool) : Int :=
  if ¬gaiOk then -1
  else if boundSock < 0 then -1
  else if ¬nonblockOk then -1
  else if ¬cloexecOk then 1
  else if ¬listenOk then -1
  else boundSock

/-- Embedding of `register_signal_handler` (server.c:114-131) as the fd it
returns.  `sfdRet` is the return value of `signalfd` (negative on failure);
`maskOk` is whether `sigprocmask` succeeded.  Note the source returns `1`
— not a negative value — on either failure. -/
def register_signal_handler (sfdRet : Int) (maskOk : Bool) : Int :=
  if sfdRet < 0 then 1
  else if ¬maskOk then 1
  else sfdRet

/-- Outcome of the setup phase of `main`: either the process returned with
an exit code, or it reached the event loop. -/
inductive SetupOutcome where
  | exited (code : Int) : SetupOutcome
  | running : SetupOutcome
deriving DecidableEq, Repr

/-- Embedding of the setup phase of `main` (server.c:242-282): obtain the
listening socket (exit 1 if negative), obtain the signal fd (exit 1 if
negative), create the epoll instance (exit 1 on failure), register the
listening and signal fds with it (exit 1 on failure). -/
def mainSetup (gaiOk : Bool) (boundSock : Int) (nonblockOk cloexecOk listenOk : Bool)
    (sfdRet : Int) (maskOk : Bool) (epollRet : Int)
    (addListenOk addSignalOk : Bool) : SetupOutcome :=
  let listen_fd := listen_on gaiOk boundSock nonblockOk cloexecOk listenOk
  if listen_fd < 0 then .exited 1
  else
    let signal_fd := register_signal_handler sfdRet maskOk
    if signal_fd < 0 then .exited 1
    else if epollRet < 0 then .exited 1
    else if ¬addListenOk then .exited 1
    else if ¬addSignalOk then .exited 1
    else .running

/-- Embedding of `create_conn_data` (server.c:177-195): allocate the record,
register the fd with epoll keyed by the record; on registration failure log,
free the record and return NULL (`none`); otherwise initialise both waker
slots to null. -/
def create_conn_data (epollAddOk : Bool) (fd : Int) : Option ConnData :=
  if ¬epollAddOk then none
  else some { fd := fd, read_waker := none, write_waker := none }

/-- Embedding of `create_io` (server.c:197-205) restricted to what the claims
observe: the userdata installed on the `hyper_io` binding, set unchecked to
whatever pointer the caller passed. -/
def create_io_userdata (conn : Option ConnData) : Option ConnData := conn

/-- Userdata that the accept path of `main` (server.c:378-386) installs on
the I/O binding for a newly accepted fd: the result of `create_conn_data`,
passed to `create_io` with no null check. -/
def acceptWireUserdata (epollAddOk : Bool) (fd : Int) : Option ConnData :=
  create_io_userdata (create_conn_data epollAddOk fd)

/-- Invocation of `read_cb` through the `hyper_io` userdata pointer:
`read_cb` immediately dereferences `conn` (`conn->fd`), so a null userdata
has no defined result (`none` marks the null dereference). -/
def read_cb_viaUserdata (userdata : Option ConnData) (ctx : Waker) (sys : SyscallRet) :
    Option CbOut :=
  match userdata with
  | none => none
  | some conn => some (read_cb conn ctx sys)

/-- Invocation of `write_cb` through the `hyper_io` userdata pointer,
likewise undefined (`none`) on a null record. -/
def write_cb_viaUserdata (userdata : Option ConnData) (ctx : Waker) (sys : SyscallRet) :
    Option CbOut :=
  match userdata with
  | none => none
  | some conn => some (write_cb conn ctx sys)

/-- A connection produced by one successful `accept`: the new fd and whether
the two `fcntl` configuration calls on it succeed. -/
structure NewConn where
  fd : Int
  nonblockOk : Bool
  cloexecOk : Bool
deriving DecidableEq, Repr

/-- Outcome of the accept drain: either the process returned with an exit
code (an `fcntl` failure at server.c:367-376), or the drain finished with
the list of accepted fds and whether the terminating errno was logged. -/
inductive DrainOut where
  | exitProcess (code : Int) : DrainOut
  | drained (accepted : List Int) (loggedErrno : Bool) : DrainOut
deriving DecidableEq, Repr

/-- Embedding of the accept drain loop of `main` (server.c:350-391): `accept`
is called repeatedly while it returns a non-negative fd (`conns` lists the
successive successes; `finalErrno` is the errno of the first failure, which
ends the loop whatever it is); each accepted fd is configured (an `fcntl`
failure makes `main` return 1) and wired up; after the loop, `perror` runs
exactly when the errno is not `EAGAIN`, and control falls through to the
rest of the event fan-out. -/
def acceptDrain (conns : List NewConn) (finalErrno : Errno) : DrainOut :=
  match conns with
  | [] => .drained [] (finalErrno ≠ .eagain)
  | c :: rest =>
      if ¬c.nonblockOk then .exitProcess 1
      else if ¬c.cloexecOk then .exitProcess 1
      else
        match acceptDrain rest finalErrno with
        | .exitProcess k => .exitProcess k
        | .drained acc lg => .drained (c.fd :: acc) lg

/-- Signal number carried by the `signalfd_siginfo` record. -/
inductive Sig where
  | sigint : Sig
  | sigterm : Sig
  | sigquit : Sig
  | otherSig (n : Nat) : Sig
deriving DecidableEq, Repr

/-- Outcome of handling a readable signal fd: the process returned with an
exit code (short read), broke out to teardown printing one line and running
the teardown actions, or printed a diagnostic and continued the loop. -/
inductive SigOutcome where
  | exitProcess (code : Int) : SigOutcome
  | teardown (line : String) (acts : List Action) (code : Int) : SigOutcome
  | ignoreContinue (line : String) : SigOutcome
deriving DecidableEq, Repr

/-- Teardown at the `EXIT` label (server.c:426-430): free the
server-connection options, then free the executor; `main` returns 1.
No in-flight connection is drained. -/
def exitTeardown : List Action := [Action.freeOpts, Action.freeExec]

/-- Embedding of the signal branch of `main` (server.c:392-410): one `read`
of a single `signalfd_siginfo` record (a short read is fatal: return 1);
`SIGINT`/`SIGTERM`/`SIGQUIT` print one line and jump to the `EXIT`
teardown, which returns 1; any other signal prints a diagnostic and the
loop continues. -/
def handle_signal (readFullRecord : Bool) (sig : Sig) : SigOutcome :=
  if ¬readFullRecord then .exitProcess 1
  else
    match sig with
    | .sigint => .teardown "Caught SIGINT... exiting" exitTeardown 1
    | .sigterm => .teardown "Caught SIGTERM... exiting" exitTeardown 1
    | .sigquit => .teardown "Caught SIGQUIT... exiting" exitTeardown 1
    | .otherSig n =>
        .ignoreContinue ("Caught unexpected signal " ++ toString n ++ "... ignoring")

/-- Run of `n` consecutive would-block returns from `read_cb` on the same
record: call `k` (0-based) is handed the fresh waker `ctx0 + k` by its
context.  Returns the record after the run and the concatenation of the
wakers freed across the calls. -/
def pendingRun (conn : ConnData) (ctx0 : Nat) : Nat → ConnData × List Waker
  | 0 => (conn, [])
  | Nat.succ k =>
      let p := pendingRun conn ctx0 k
      let out := read_cb p.1 (ctx0 + k) (SyscallRet.fail Errno.eagain)
      (out.conn, p.2 ++ out.freed)

/-- Run of `n` consecutive would-block returns from `write_cb` on the same
record, symmetric to `pendingRun`: call `k` (0-based) is handed the fresh
waker `ctx0 + k` by its context.  Returns the record after the run and the
concatenation of the wakers freed across the calls. -/
def pendingRunW (conn : ConnData) (ctx0 : Nat) : Nat → ConnData × List Waker
  | 0 => (conn, [])
  | Nat.succ k =>
      let p := pendingRunW conn ctx0 k
      let out := write_cb p.1 (ctx0 + k) (SyscallRet.fail Errno.eagain)
      (out.conn, p.2 ++ out.freed)

/-- Operation the event loop can perform on one connection record: invoke
`read_cb` or `write_cb` with a given syscall outcome, fan out a readiness
event, or destroy the record. -/
inductive Op where
  | readAttempt (sys : SyscallRet) : Op
  | writeAttempt (sys : SyscallRet) : Op
  | connEvent (ev : Events) : Op
  | destroy (epollDelOk : Bool) : Op
deriving DecidableEq, Repr

/-- Bookkeeping state for one connection record across a trace of event-loop
operations: the record (`none` once destroyed), the engine's fresh-waker
supply, and per direction the wakers ever issued to, freed by, and woken by
the program. -/
structure TraceSt where
  conn : Option ConnData
  nextCtx : Nat
  issuedR : List Waker
  freedR : List Waker
  wokenR : List Waker
  issuedW : List Waker
  freedW : List Waker
  wokenW : List Waker
deriving DecidableEq, Repr

/-- Bookkeeping state for a record fresh out of `create_conn_data`, with the
engine's waker supply starting at `ctx0`. -/
def initTrace (fd : Int) (ctx0 : Nat) : TraceSt :=
  { conn := some { fd := fd, read_waker := none, write_waker := none }
    nextCtx := ctx0
    issuedR := [], freedR := [], wokenR := []
    issuedW := [], freedW := [], wokenW := [] }

/-- One event-loop operation applied to the bookkeeping state.  A destroyed
record is keyed out of the epoll set, so no further operation reaches it. -/
def stepOp (s : TraceSt) (op : Op) : TraceSt :=
  match s.conn with
  | none => s
  | some c =>
    match op with
    | .readAttempt sys =>
        let out := read_cb c s.nextCtx sys
        { s with
          conn := some out.conn
          nextCtx := s.nextCtx + 1
          issuedR := s.issuedR ++ (if out.ret = .ioPending then [s.nextCtx] else [])
          freedR := s.freedR ++ out.freed }
    | .writeAttempt sys =>
        let out := write_cb c s.nextCtx sys
        { s with
          conn := some out.conn
          nextCtx := s.nextCtx + 1
          issuedW := s.issuedW ++ (if out.ret = .ioPending then [s.nextCtx] else [])
          freedW := s.freedW ++ out.freed }
    | .connEvent ev =>
        let out := handle_conn_event c ev
        { s with
          conn := some out.conn
          wokenR := s.wokenR ++ (if ev.epollin then c.read_waker.toList else [])
          wokenW := s.wokenW ++ (if ev.epollout then c.write_waker.toList else []) }
    | .destroy _ =>
        { s with
          conn := none
          freedR := s.freedR ++ c.read_waker.toList
          freedW := s.freedW ++ c.write_waker.toList }

/-- Bookkeeping state after a whole trace of event-loop operations. -/
def runOps (s : TraceSt) (ops : List Op) : TraceSt :=
  ops.foldl stepOp s

/-- Number of read-resumption handles currently stored in the record. -/
def storedR (s : TraceSt) : Nat :=
  match s.conn with
  | some c => c.read_waker.toList.length
  | none => 0

/-- Number of write-resumption handles currently stored in the record. -/
def storedW (s : TraceSt) : Nat :=
  match s.conn with
  | some c => c.write_waker.toList.length
  | none => 0

section Helpers

/-- Evaluation of `read_cb` on a successful syscall. -/
theorem read_cb_ok (conn : ConnData) (ctx : Waker) (n : Nat) :
    read_cb conn ctx (.ok n) = { ret := .bytes n, conn := conn, freed := [] } := rfl

/-- Evaluation of `read_cb` on a non-`EAGAIN` failure. -/
theorem read_cb_err (conn : ConnData) (ctx : Waker) (e : Errno) (he : e ≠ .eagain) :
    read_cb conn ctx (.fail e) = { ret := .ioErr, conn := conn, freed := [] } := by
  simp [read_cb, he]

/-- Evaluation of `read_cb` on `EAGAIN`. -/
theorem read_cb_eagain (conn : ConnData) (ctx : Waker) :
    read_cb conn ctx (.fail .eagain) =
      { ret := .ioPending
        conn := { conn with read_waker := some ctx }
        freed := conn.read_waker.toList } := by
  simp [read_cb]

/-- Evaluation of `write_cb` on a successful syscall. -/
theorem write_cb_ok (conn : ConnData) (ctx : Waker) (n : Nat) :
    write_cb conn ctx (.ok n) = { ret := .bytes n, conn := conn, freed := [] } := rfl

/-- Evaluation of `write_cb` on a non-`EAGAIN` failure. -/
theorem write_cb_err (conn : ConnData) (ctx : Waker) (e : Errno) (he : e ≠ .eagain) :
    write_cb conn ctx (.fail e) = { ret := .ioErr, conn := conn, freed := [] } := by
  simp [write_cb, he]

/-- Evaluation of `write_cb` on `EAGAIN`. -/
theorem write_cb_eagain (conn : ConnData) (ctx : Waker) :
    write_cb conn ctx (.fail .eagain) =
      { ret := .ioPending
        conn := { conn with write_waker := some ctx }
        freed := conn.write_waker.toList } := by
  simp [write_cb]

/-- Characterisation of the readiness fan-out branch. -/
theorem handle_conn_event_spec (conn : ConnData) (ev : Events) :
    handle_conn_event conn ev =
      { conn := { conn with
            read_waker := if ev.epollin then none else conn.read_waker
            write_waker := if ev.epollout then none else conn.write_waker }
        woken := (if ev.epollin then conn.read_waker.toList else []) ++
          (if ev.epollout then conn.write_waker.toList else []) } := by
  obtain ⟨fd, rw, ww⟩ := conn
  obtain ⟨pin, pout⟩ := ev
  cases pin <;> cases pout <;> cases rw <;> cases ww <;> rfl

end Helpers

/-- C1: the read callback returns the syscall's byte count on a non-negative
return; on `EAGAIN` it stores a fresh resumption handle from the context
into the record's read slot and returns the pending sentinel; on any other
failure it returns the I/O-error sentinel and leaves the record untouched.
The write callback behaves symmetrically on the write slot. -/
theorem read_write_cb_contract (conn : ConnData) (ctx : Waker) :
    (∀ n, read_cb conn ctx (.ok n) = { ret := .bytes n, conn := conn, freed := [] }) ∧
    (∀ e, e ≠ Errno.eagain →
      read_cb conn ctx (.fail e) = { ret := .ioErr, conn := conn, freed := [] }) ∧
    ((read_cb conn ctx (.fail .eagain)).ret = .ioPending ∧
      (read_cb conn ctx (.fail .eagain)).conn.read_waker = some ctx ∧
      (read_cb conn ctx (.fail .eagain)).conn.write_waker = conn.write_waker ∧
      (read_cb conn ctx (.fail .eagain)).conn.fd = conn.fd) ∧
    (∀ n, write_cb conn ctx (.ok n) = { ret := .bytes n, conn := conn, freed := [] }) ∧
    (∀ e, e ≠ Errno.eagain →
      write_cb conn ctx (.fail e) = { ret := .ioErr, conn := conn, freed := [] }) ∧
    ((write_cb conn ctx (.fail .eagain)).ret = .ioPending ∧
      (write_cb conn ctx (.fail .eagain)).conn.write_waker = some ctx ∧
      (write_cb conn ctx (.fail .eagain)).conn.read_waker = conn.read_waker ∧
      (write_cb conn ctx (.fail .eagain)).conn.fd = conn.fd) := by
  refine ⟨fun n => read_cb_ok conn ctx n, fun e he => read_cb_err conn ctx e he,
    ?_, fun n => write_cb_ok conn ctx n, fun e he => write_cb_err conn ctx e he, ?_⟩
  · rw [read_cb_eagain]
    exact ⟨rfl, rfl, rfl, rfl⟩
  · rw [write_cb_eagain]
    exact ⟨rfl, rfl, rfl, rfl⟩

/-- Witness for C1 at a concrete record: a non-`EAGAIN` failure yields the
I/O-error sentinel, and an `EAGAIN` failure stores the fresh handle. -/
theorem read_write_cb_contract_witness :
    ((Errno.other 5 : Errno) ≠ Errno.eagain) ∧
    read_cb ⟨3, none, none⟩ 7 (.fail (Errno.other 5)) =
      { ret := .ioErr, conn := ⟨3, none, none⟩, freed := [] } ∧
    (read_cb ⟨3, none, none⟩ 7 (.fail .eagain)).conn.read_waker = some 7 := by
  refine ⟨by decide, ?_, ?_⟩
  · exact (read_write_cb_contract ⟨3, none, none⟩ 7).2.1 (Errno.other 5) (by decide)
  · exact (read_write_cb_contract ⟨3, none, none⟩ 7).2.2.1.2.1

/-- C2: on a readiness event for a connection, a stored read handle is woken
and its slot cleared exactly when the event is readable, a stored write
handle is woken and its slot cleared exactly when the event is writable, and
a direction with no stored handle (or not reported) leaves the record's slot
and fd untouched with nothing woken for it — no teardown happens here. -/
theorem readiness_fanout_contract (conn : ConnData) (ev : Events) :
    (handle_conn_event conn ev).conn.fd = conn.fd ∧
    (handle_conn_event conn ev).conn.read_waker =
      (if ev.epollin then none else conn.read_waker) ∧
    (handle_conn_event conn ev).conn.write_waker =
      (if ev.epollout then none else conn.write_waker) ∧
    (handle_conn_event conn ev).woken =
      (if ev.epollin then conn.read_waker.toList else []) ++
      (if ev.epollout then conn.write_waker.toList else []) := by
  rw [handle_conn_event_spec]
  exact ⟨rfl, rfl, rfl, rfl⟩

section PumpHelpers

/-- Unfolding of the pump loop on an empty completion queue. -/
theorem pumpLoop_nil (ok : Bool) : pumpLoop ok ⟨[]⟩ = ([], ⟨[]⟩) := by
  rw [pumpLoop]
  rfl

/-- Unfolding of the pump loop on a non-empty completion queue. -/
theorem pumpLoop_cons (ok : Bool) (t : HTask) (ts : List HTask) :
    pumpLoop ok ⟨t :: ts⟩ =
      (handleTask ok t ++ (pumpLoop ok ⟨ts⟩).1, (pumpLoop ok ⟨ts⟩).2) := by
  rw [pumpLoop]
  rfl

/-- The pump loop exits only once polling the executor yields no task. -/
theorem pumpLoop_drains (ok : Bool) : ∀ l : List HTask, (pumpLoop ok ⟨l⟩).2 = ⟨[]⟩
  | [] => by rw [pumpLoop_nil]
  | _ :: ts => by
      rw [pumpLoop_cons]
      exact pumpLoop_drains ok ts

/-- Handling one completed task never performs the blocking wait. -/
theorem epollWait_notMem_handleTask (ok : Bool) (t : HTask) (n : Nat) :
    Action.epollWait n ∉ handleTask ok t := by
  obtain ⟨tt, ud⟩ := t
  cases tt <;> cases ud <;> cases ok <;>
    simp [handleTask, free_conn_data]

/-- The pump loop's actions never include the blocking wait. -/
theorem epollWait_notMem_pumpLoop (ok : Bool) (n : Nat) :
    ∀ l : List HTask, Action.epollWait n ∉ (pumpLoop ok ⟨l⟩).1
  | [] => by
      rw [pumpLoop_nil]
      simp
  | t :: ts => by
      rw [pumpLoop_cons]
      simp only [List.mem_append]
      rintro (h | h)
      · exact epollWait_notMem_handleTask ok t n h
      · exact epollWait_notMem_pumpLoop ok n ts h

end PumpHelpers

/-- C3: in every iteration of the main loop the executor is pumped until
polling yields no completed task, and only then is the blocking
`epoll_wait` made: the iteration performs exactly one blocking wait, it is
its last action, and at that point the executor's ready queue is empty. -/
theorem pump_to_empty_before_wait (epollDelOk : Bool) (e : ExecSt) :
    Action.epollWait 0 ∈ mainLoopIter epollDelOk e ∧
    (∀ n, Action.epollWait n ∈ mainLoopIter epollDelOk e → n = 0) ∧
    (mainLoopIter epollDelOk e).getLast? = some (Action.epollWait 0) := by
  obtain ⟨l⟩ := e
  have hstate : (pumpLoop epollDelOk ⟨l⟩).2 = ⟨[]⟩ := pumpLoop_drains epollDelOk l
  have hiter : mainLoopIter epollDelOk ⟨l⟩ =
      (pumpLoop epollDelOk ⟨l⟩).1 ++ [Action.epollWait 0] := by
    simp [mainLoopIter, hstate]
  refine ⟨?_, ?_, ?_⟩
  · rw [hiter]
    simp
  · intro n hn
    rw [hiter] at hn
    rcases List.mem_append.mp hn with h | h
    · exact absurd h (epollWait_notMem_pumpLoop epollDelOk n l)
    · simpa using h
  · rw [hiter]
    simp

/-- Witness for C3 at a concrete queue holding one completed server task. -/
theorem pump_to_empty_before_wait_witness :
    Action.epollWait 0 ∈ mainLoopIter true ⟨[⟨.taskEmpty, some ⟨3, none, none⟩⟩]⟩ ∧
    (0 : Nat) = 0 := by
  refine ⟨(pump_to_empty_before_wait true ⟨[⟨.taskEmpty, some ⟨3, none, none⟩⟩]⟩).1, ?_⟩
  exact (pump_to_empty_before_wait true ⟨[⟨.taskEmpty, some ⟨3, none, none⟩⟩]⟩).2.1 0
    (pump_to_empty_before_wait true ⟨[⟨.taskEmpty, some ⟨3, none, none⟩⟩]⟩).1

/-- Phase number of a teardown action, used to state that `free_conn_data`
performs its effects in the required order. -/
def teardownPhase : Action → Nat
  | .epollDel _ => 0
  | .logPerror _ => 1
  | .waker_free _ => 2
  | .closeFd _ => 3
  | .freeConn => 4
  | _ => 5

/-- C4: destroying a connection record performs, in this order: epoll
deregistration first, then freeing of each stored resumption handle, then
closing the fd, then freeing the record (the last action); a deregistration
failure only inserts a log entry between deregistration and the frees and
never aborts the teardown. -/
theorem free_conn_data_order (ok : Bool) (conn : ConnData) :
    List.Chain' (· ≤ ·) ((free_conn_data ok conn).map teardownPhase) ∧
    (free_conn_data ok conn).head? = some (Action.epollDel conn.fd) ∧
    (free_conn_data ok conn).getLast? = some Action.freeConn ∧
    Action.closeFd conn.fd ∈ free_conn_data ok conn ∧
    (∀ w, conn.read_waker = some w → Action.waker_free w ∈ free_conn_data ok conn) ∧
    (∀ w, conn.write_waker = some w → Action.waker_free w ∈ free_conn_data ok conn) ∧
    (ok = false → Action.logPerror "epoll_ctl (transport)" ∈ free_conn_data ok conn) := by
  obtain ⟨fd, rw, ww⟩ := conn
  refine ⟨?_, ?_, ?_, ?_, fun w hw => ?_, fun w hw => ?_, fun hok => ?_⟩ <;>
    cases ok <;> cases rw <;> cases ww <;>
    simp_all [free_conn_data, teardownPhase]

/-- Witness for C4 at a concrete record with both handles stored and a
failing deregistration. -/
theorem free_conn_data_order_witness :
    Action.waker_free 1 ∈ free_conn_data false ⟨3, some 1, some 2⟩ ∧
    Action.waker_free 2 ∈ free_conn_data false ⟨3, some 1, some 2⟩ ∧
    Action.logPerror "epoll_ctl (transport)" ∈ free_conn_data false ⟨3, some 1, some 2⟩ := by
  refine ⟨?_, ?_, ?_⟩
  · exact (free_conn_data_order false ⟨3, some 1, some 2⟩).2.2.2.2.1 1 rfl
  · exact (free_conn_data_order false ⟨3, some 1, some 2⟩).2.2.2.2.2.1 2 rfl
  · exact (free_conn_data_order false ⟨3, some 1, some 2⟩).2.2.2.2.2.2 rfl

/-- Closed form of a run of `k+1` would-block returns: the record ends with
the newest handle stored, and the freed handles are the initially stored one
followed by each superseded predecessor. -/
theorem pendingRun_spec (conn : ConnData) (ctx0 : Nat) :
    ∀ k, (pendingRun conn ctx0 (k + 1)).1 = { conn with read_waker := some (ctx0 + k) } ∧
      (pendingRun conn ctx0 (k + 1)).2 =
        conn.read_waker.toList ++ (List.range k).map (ctx0 + ·) := by
  intro k
  induction k with
  | zero =>
      constructor
      · simp [pendingRun, read_cb_eagain]
      · simp [pendingRun, read_cb_eagain]
  | succ k ih =>
      obtain ⟨ih1, ih2⟩ := ih
      constructor
      · show (read_cb (pendingRun conn ctx0 (k + 1)).1 (ctx0 + (k + 1))
            (SyscallRet.fail Errno.eagain)).conn = _
        rw [ih1, read_cb_eagain]
      · show (pendingRun conn ctx0 (k + 1)).2 ++
            (read_cb (pendingRun conn ctx0 (k + 1)).1 (ctx0 + (k + 1))
              (SyscallRet.fail Errno.eagain)).freed = _
        rw [ih1, ih2, read_cb_eagain]
        simp [List.range_succ]

/-- Closed form of a run of `k+1` would-block returns from `write_cb`,
symmetric to `pendingRun_spec` on the write slot. -/
theorem pendingRunW_spec (conn : ConnData) (ctx0 : Nat) :
    ∀ k, (pendingRunW conn ctx0 (k + 1)).1 = { conn with write_waker := some (ctx0 + k) } ∧
      (pendingRunW conn ctx0 (k + 1)).2 =
        conn.write_waker.toList ++ (List.range k).map (ctx0 + ·) := by
  intro k
  induction k with
  | zero =>
      constructor
      · simp [pendingRunW, write_cb_eagain]
      · simp [pendingRunW, write_cb_eagain]
  | succ k ih =>
      obtain ⟨ih1, ih2⟩ := ih
      constructor
      · show (write_cb (pendingRunW conn ctx0 (k + 1)).1 (ctx0 + (k + 1))
            (SyscallRet.fail Errno.eagain)).conn = _
        rw [ih1, write_cb_eagain]
      · show (pendingRunW conn ctx0 (k + 1)).2 ++
            (write_cb (pendingRunW conn ctx0 (k + 1)).1 (ctx0 + (k + 1))
              (SyscallRet.fail Errno.eagain)).freed = _
        rw [ih1, ih2, write_cb_eagain]
        simp [List.range_succ]

/-- C5: starting from an empty slot, a run of `n ≥ 1` consecutive
would-block returns from the same callback frees exactly `n - 1` handles
(each superseded predecessor, freed before its replacement is installed),
leaves the newest handle stored, frees nothing further at the next
successful syscall completion, and a subsequent readiness event for that
direction wakes only the newest handle; in general a pending return on a
populated slot frees exactly the old handle and installs the fresh one.
All of this holds for the read callback on the read slot and symmetrically
for the write callback on the write slot. -/
theorem pending_replaces_and_counts (conn : ConnData) (ctx0 n : Nat)
    (h0r : conn.read_waker = none) (h0w : conn.write_waker = none) (hn : 1 ≤ n) :
    (pendingRun conn ctx0 n).2.length = n - 1 ∧
    (pendingRun conn ctx0 n).1.read_waker = some (ctx0 + (n - 1)) ∧
    (∀ c m, (read_cb (pendingRun conn ctx0 n).1 c (SyscallRet.ok m)).freed = []) ∧
    (handle_conn_event (pendingRun conn ctx0 n).1 ⟨true, false⟩).woken =
      [ctx0 + (n - 1)] ∧
    (∀ c w ctx, ConnData.read_waker c = some w →
      (read_cb c ctx (SyscallRet.fail Errno.eagain)).freed = [w] ∧
      (read_cb c ctx (SyscallRet.fail Errno.eagain)).conn.read_waker = some ctx) ∧
    (pendingRunW conn ctx0 n).2.length = n - 1 ∧
    (pendingRunW conn ctx0 n).1.write_waker = some (ctx0 + (n - 1)) ∧
    (∀ c m, (write_cb (pendingRunW conn ctx0 n).1 c (SyscallRet.ok m)).freed = []) ∧
    (handle_conn_event (pendingRunW conn ctx0 n).1 ⟨false, true⟩).woken =
      [ctx0 + (n - 1)] ∧
    (∀ c w ctx, ConnData.write_waker c = some w →
      (write_cb c ctx (SyscallRet.fail Errno.eagain)).freed = [w] ∧
      (write_cb c ctx (SyscallRet.fail Errno.eagain)).conn.write_waker = some ctx) := by
  obtain ⟨k, rfl⟩ : ∃ k, n = k + 1 := ⟨n - 1, by omega⟩
  obtain ⟨h1, h2⟩ := pendingRun_spec conn ctx0 k
  obtain ⟨h1w, h2w⟩ := pendingRunW_spec conn ctx0 k
  refine ⟨?_, ?_, ?_, ?_, ?_, ?_, ?_, ?_, ?_, ?_⟩
  · rw [h2, h0r]
    simp
  · rw [h1]
    simp
  · intro c m
    rw [read_cb_ok]
  · rw [h1, handle_conn_event_spec]
    simp
  · intro c w ctx hc
    rw [read_cb_eagain]
    exact ⟨by simp [hc], rfl⟩
  · rw [h2w, h0w]
    simp
  · rw [h1w]
    simp
  · intro c m
    rw [write_cb_ok]
  · rw [h1w, handle_conn_event_spec]
    simp
  · intro c w ctx hc
    rw [write_cb_eagain]
    exact ⟨by simp [hc], rfl⟩

/-- Witness for C5: a run of three would-block returns on a fresh record
frees two handles, stores the newest, and a readiness event for that
direction wakes only it — on the read side and on the write side. -/
theorem pending_replaces_and_counts_witness :
    (pendingRun ⟨3, none, none⟩ 10 3).2.length = 2 ∧
    (pendingRun ⟨3, none, none⟩ 10 3).1.read_waker = some 12 ∧
    (handle_conn_event (pendingRun ⟨3, none, none⟩ 10 3).1 ⟨true, false⟩).woken = [12] ∧
    (pendingRunW ⟨3, none, none⟩ 10 3).2.length = 2 ∧
    (pendingRunW ⟨3, none, none⟩ 10 3).1.write_waker = some 12 ∧
    (handle_conn_event (pendingRunW ⟨3, none, none⟩ 10 3).1 ⟨false, true⟩).woken = [12] := by
  obtain ⟨a, b, _, d, _, aw, bw, _, dw, _⟩ :=
    pending_replaces_and_counts ⟨3, none, none⟩ 10 3 rfl rfl (by decide)
  exact ⟨a, b, d, aw, bw, dw⟩

/-- Bookkeeping invariant: per direction, every handle ever issued by the
engine has been freed, woken, or is the one currently stored in the record. -/
def wakerInv (s : TraceSt) : Prop :=
  s.issuedR.length = s.freedR.length + s.wokenR.length + storedR s ∧
  s.issuedW.length = s.freedW.length + s.wokenW.length + storedW s

/-- Any single handle slot holds at most one handle. -/
theorem storedR_le_one (s : TraceSt) : storedR s ≤ 1 := by
  unfold storedR
  cases s.conn with
  | none => exact Nat.zero_le 1
  | some c =>
    obtain ⟨fd, rw, ww⟩ := c
    cases rw <;> simp

/-- Any single handle slot holds at most one handle (write side). -/
theorem storedW_le_one (s : TraceSt) : storedW s ≤ 1 := by
  unfold storedW
  cases s.conn with
  | none => exact Nat.zero_le 1
  | some c =>
    obtain ⟨fd, rw, ww⟩ := c
    cases ww <;> simp

/-- Every event-loop operation preserves the bookkeeping invariant. -/
theorem stepOp_wakerInv (s : TraceSt) (op : Op) (h : wakerInv s) :
    wakerInv (stepOp s op) := by
  obtain ⟨conn, nctx, iR, fR, wR, iW, fW, wW⟩ := s
  unfold wakerInv storedR storedW at *
  cases conn with
  | none => cases op <;> simpa [stepOp] using h
  | some c =>
    obtain ⟨fd, rw, ww⟩ := c
    cases op with
    | readAttempt sys =>
        rcases sys with n | e
        · simpa [stepOp, read_cb] using h
        · rcases e with _ | code
          · cases rw <;> simp_all [stepOp, read_cb] <;> omega
          · simpa [stepOp, read_cb] using h
    | writeAttempt sys =>
        rcases sys with n | e
        · simpa [stepOp, write_cb] using h
        · rcases e with _ | code
          · cases ww <;> simp_all [stepOp, write_cb] <;> omega
          · simpa [stepOp, write_cb] using h
    | connEvent ev =>
        obtain ⟨pin, pout⟩ := ev
        cases pin <;> cases pout <;> cases rw <;> cases ww <;>
          simp_all [stepOp, handle_conn_event] <;> omega
    | destroy dok =>
        cases rw <;> cases ww <;> simp_all [stepOp] <;> omega

/-- A whole trace of event-loop operations preserves the invariant. -/
theorem runOps_wakerInv (ops : List Op) :
    ∀ s, wakerInv s → wakerInv (runOps s ops) := by
  induction ops with
  | nil => exact fun s h => h
  | cons op rest ih =>
      intro s h
      have : runOps s (op :: rest) = runOps (stepOp s op) rest := by
        simp [runOps]
      rw [this]
      exact ih (stepOp s op) (stepOp_wakerInv s op h)

/-- C6: from a freshly created connection record, after any sequence of
event-loop operations (callback invocations, readiness fan-outs,
destruction) at most one read-resumption handle and at most one
write-resumption handle are stored, and per direction the handles issued so
far are exactly accounted for by those freed, those woken, and the at most
one still stored. -/
theorem at_most_one_outstanding_waker (fd : Int) (ctx0 : Nat) (ops : List Op) :
    storedR (runOps (initTrace fd ctx0) ops) ≤ 1 ∧
    storedW (runOps (initTrace fd ctx0) ops) ≤ 1 ∧
    (runOps (initTrace fd ctx0) ops).issuedR.length =
      (runOps (initTrace fd ctx0) ops).freedR.length +
      (runOps (initTrace fd ctx0) ops).wokenR.length +
      storedR (runOps (initTrace fd ctx0) ops) ∧
    (runOps (initTrace fd ctx0) ops).issuedW.length =
      (runOps (initTrace fd ctx0) ops).freedW.length +
      (runOps (initTrace fd ctx0) ops).wokenW.length +
      storedW (runOps (initTrace fd ctx0) ops) := by
  have h0 : wakerInv (initTrace fd ctx0) := by
    constructor <;> simp [initTrace, storedR, storedW]
  have h := runOps_wakerInv ops (initTrace fd ctx0) h0
  exact ⟨storedR_le_one _, storedW_le_one _, h.1, h.2⟩

/-- C7 (failing input): when `signalfd` fails, `register_signal_handler`
returns 1 instead of a negative value, so `main`'s `signal_fd < 0` guard
does not fire and the process keeps running (with fd 1 as its signal fd)
instead of exiting non-zero; the same slip exists in `listen_on` when
`fcntl(FD_CLOEXEC)` fails.  By contrast the checks that do use negative
returns exit with 1 as claimed. -/
theorem signalfd_failure_not_fatal :
    register_signal_handler (-1) true = 1 ∧
    mainSetup true 5 true true true (-1) true 4 true true = SetupOutcome.running ∧
    listen_on true 5 true false true = 1 ∧
    mainSetup true 5 true false true 6 true 4 true true = SetupOutcome.running ∧
    mainSetup false 5 true true true 6 true 4 true true = SetupOutcome.exited 1 ∧
    mainSetup true (-1) true true true 6 true 4 true true = SetupOutcome.exited 1 ∧
    mainSetup true 5 true true true 6 true (-1) true true = SetupOutcome.exited 1 ∧
    mainSetup true 5 true true true 6 true 4 false true = SetupOutcome.exited 1 := by
  refine ⟨?_, ?_, ?_, ?_, ?_, ?_, ?_, ?_⟩ <;> decide

/-- C8 (counterexample): the accept drain also terminates when `accept`
fails with an errno other than would-block — here `EMFILE` (24) after one
accepted connection — refuting that it terminates exactly on would-block;
the non-would-block errno is logged and the outer loop continues. -/
theorem accept_drain_stops_on_other_errno :
    acceptDrain [⟨7, true, true⟩] (Errno.other 24) = DrainOut.drained [7] true ∧
    Errno.other 24 ≠ Errno.eagain := by
  refine ⟨?_, ?_⟩ <;> decide

/-- C8 (amended): provided the per-fd `fcntl` configuration succeeds, the
accept drain loop terminates at the first failing `accept` whatever its
errno, accepting every earlier connection; the terminating errno is logged
exactly when it is not would-block; and in neither case does the drain abort
the server or break the outer main loop (it falls through to the rest of the
event fan-out). -/
theorem accept_drain_contract (conns : List NewConn) (e : Errno)
    (hcfg : ∀ c ∈ conns, c.nonblockOk = true ∧ c.cloexecOk = true) :
    acceptDrain conns e =
      DrainOut.drained (conns.map NewConn.fd) (decide (e ≠ Errno.eagain)) := by
  induction conns with
  | nil => rfl
  | cons c rest ih =>
      obtain ⟨h1, h2⟩ := hcfg c (List.mem_cons_self c rest)
      have hrest := ih (fun d hd => hcfg d (List.mem_cons_of_mem c hd))
      simp [acceptDrain, h1, h2, hrest]

/-- Witness for the amended C8 at two well-configured connections and an
`EMFILE` terminator. -/
theorem accept_drain_contract_witness :
    acceptDrain [⟨7, true, true⟩, ⟨8, true, true⟩] (Errno.other 24) =
      DrainOut.drained [7, 8] true :=
  accept_drain_contract [⟨7, true, true⟩, ⟨8, true, true⟩] (Errno.other 24) (by decide)

/-- C9: on a readable signal fd one full signal-info record is read; an
interrupt, terminate, or quit signal prints one identifying line and breaks
out to the teardown, which frees the server-connection options and then the
executor (nothing else — no in-flight connection is drained) and returns 1;
any other signal prints a diagnostic and the loop continues. -/
theorem signal_shutdown_contract :
    handle_signal true Sig.sigint =
      SigOutcome.teardown "Caught SIGINT... exiting" [Action.freeOpts, Action.freeExec] 1 ∧
    handle_signal true Sig.sigterm =
      SigOutcome.teardown "Caught SIGTERM... exiting" [Action.freeOpts, Action.freeExec] 1 ∧
    handle_signal true Sig.sigquit =
      SigOutcome.teardown "Caught SIGQUIT... exiting" [Action.freeOpts, Action.freeExec] 1 ∧
    (∀ n, handle_signal true (Sig.otherSig n) =
      SigOutcome.ignoreContinue ("Caught unexpected signal " ++ toString n ++ "... ignoring")) ∧
    exitTeardown = [Action.freeOpts, Action.freeExec] := by
  exact ⟨rfl, rfl, rfl, fun n => rfl, rfl⟩

/-- C10: when registering a newly accepted fd with epoll fails,
`create_conn_data` frees the record and returns NULL, and the accept path
installs that NULL, unchecked, as the I/O binding's userdata — so any later
read or write callback invocation on the binding dereferences a null
connection record (no defined result); on success the record is installed
as-is. -/
theorem null_record_on_register_failure :
    (∀ fd, acceptWireUserdata false fd = none) ∧
    (∀ fd ctx sys, read_cb_viaUserdata (acceptWireUserdata false fd) ctx sys = none) ∧
    (∀ fd ctx sys, write_cb_viaUserdata (acceptWireUserdata false fd) ctx sys = none) ∧
    (∀ ok fd, acceptWireUserdata ok fd = create_conn_data ok fd) ∧
    (∀ fd, acceptWireUserdata true fd =
      some { fd := fd, read_waker := none, write_waker := none }) := by
  exact ⟨fun fd => rfl, fun fd ctx sys => rfl, fun fd ctx sys => rfl,
    fun ok fd => rfl, fun fd => rfl⟩

end HyperServer
